import Mathlib

/-!
Verification of the memory-service Python adapters.

Part 1 models `memory_service_langchain/response_resumer.py`: the
per-conversation resume state, the producer loop, and one iteration of the
reader loop (`_stream_state`), together with `replay` and `cancel`.

Part 2 models `memory_service_langchain/checkpoint_saver.py`: the entry
encoding, `get_tuple`, `list`, and the `put` retry ladder, against a
service model taken from the specification (the remote entry service is
part of the repository but its sources are not available here).
-/

namespace ResponseResumer

/-- Model of `_ResumeState`: the shared per-conversation record.  The
`wake` flag models whether `wake_event` is set. -/
structure ResumeState where
  tokens : List String
  index : Nat
  cancelled : Bool
  complete : Bool
  wake : Bool
deriving Repr, DecidableEq

/-- The state registered by `stream_from_source`: `_ResumeState(tokens=[])`. -/
def freshState : ResumeState :=
  { tokens := [], index := 0, cancelled := false, complete := false, wake := false }

/-- Outcome of one iteration of the `_stream_state` loop body. -/
inductive PullResult where
  /-- The reader yields a token and loops. -/
  | yield (tok : String) (s : ResumeState)
  /-- The generator returns: the stream ends. -/
  | done (s : ResumeState)
  /-- The reader must block on the wake event before re-evaluating. -/
  | wait (s : ResumeState)
deriving Repr, DecidableEq

/-- One iteration of the `_stream_state` loop, executed under the lock:
cancellation is checked first (and marks the state complete), then a
buffered token at the shared `index` is delivered, then completion ends
the stream, otherwise the reader waits on the wake event. -/
def streamStateStep (s : ResumeState) : PullResult :=
  if s.cancelled then
    .done { s with complete := true }
  else if h : s.index < s.tokens.length then
    .yield (s.tokens.get ⟨s.index, h⟩) { s with index := s.index + 1 }
  else if s.complete then
    .done s
  else
    .wait s

/-- The loop body of `_produce_from_source` over the chunks the source
yields before finishing or raising: under the lock, a cancelled state stops
production (marking complete and waking waiters); otherwise non-empty
chunks are appended and waiters are woken. -/
def produceLoop (s : ResumeState) : List String → ResumeState
  | [] => s
  | chunk :: rest =>
    if s.cancelled then
      { s with complete := true, wake := true }
    else
      produceLoop
        { s with
          tokens := s.tokens ++ (if chunk ≠ "" then [chunk] else [])
          wake := true }
        rest

/-- `_produce_from_source` on the chunks the source yielded before it
finished normally or raised: exceptions are swallowed and the `finally`
block marks the state complete and sets the wake event in either case. -/
def produceFromSource (s : ResumeState) (chunks : List String) : ResumeState :=
  let s1 := produceLoop s chunks
  { s1 with complete := true, wake := true }

/-- A schedulable step of the system: a pull by reader one, a pull by
reader two, or the producer handling one chunk from its source. -/
inductive SysStep where
  | read1
  | read2
  | produce (chunk : String)
deriving Repr, DecidableEq

/-- One producer iteration (the body of the `async for` in
`_produce_from_source`) for a single chunk. -/
def produceChunk (s : ResumeState) (chunk : String) : ResumeState :=
  if s.cancelled then
    { s with complete := true, wake := true }
  else
    { s with
      tokens := s.tokens ++ (if chunk ≠ "" then [chunk] else [])
      wake := true }

/-- Effect of one scheduled step on the shared state, together with the
token delivered to a reader, when one is (`true` tags reader one).  A
reader whose pull ends or would block leaves the observable trace
unchanged; the wait branch consumes the wake flag (`wait` then `clear`). -/
def sysStep (s : ResumeState) : SysStep → ResumeState × Option (Bool × String)
  | .read1 =>
    match streamStateStep s with
    | .yield tok s1 => (s1, some (true, tok))
    | .done s1 => (s1, none)
    | .wait s1 => ({ s1 with wake := false }, none)
  | .read2 =>
    match streamStateStep s with
    | .yield tok s1 => (s1, some (false, tok))
    | .done s1 => (s1, none)
    | .wait s1 => ({ s1 with wake := false }, none)
  | .produce chunk => (produceChunk s chunk, none)

/-- Run a schedule of system steps, collecting every delivered token in
delivery order, tagged with the reader that received it. -/
def runSys (s : ResumeState) : List SysStep → ResumeState × List (Bool × String)
  | [] => (s, [])
  | step :: rest =>
    ((runSys (sysStep s step).1 rest).1,
     (sysStep s step).2.toList ++ (runSys (sysStep s step).1 rest).2)

/-- Tokens observed by reader one in a delivery trace. -/
def seenBy (b : Bool) (dels : List (Bool × String)) : List String :=
  (dels.filter (fun d => d.1 == b)).map (fun d => d.2)

/-- The map of resume states held by the resumer. -/
abbrev StateMap := List (String × ResumeState)

/-- `replay`: under the lock, look up the conversation; a missing,
complete, or cancelled state raises `KeyError` (modelled as `none`);
otherwise the shared state itself backs the returned stream. -/
def replay (m : StateMap) (conversationId : String) : Option ResumeState :=
  match m.lookup conversationId with
  | none => none
  | some s => if s.complete || s.cancelled then none else some s

/-- `check`: the ids whose state exists and is neither complete nor
cancelled. -/
def check (m : StateMap) (conversationIds : List String) : List String :=
  conversationIds.filter (fun cid =>
    match m.lookup cid with
    | none => false
    | some s => !(s.complete || s.cancelled))

/-- `cancel`: a missing or already-complete state is left untouched;
otherwise the state is marked cancelled and waiters are woken. -/
def cancel (m : StateMap) (conversationId : String) : StateMap :=
  match m.lookup conversationId with
  | none => m
  | some s =>
    if s.complete then m
    else
      m.map (fun p =>
        if p.1 = conversationId then (p.1, { s with cancelled := true, wake := true }) else p)

/-- The contiguous portion of a token sequence between two cursor values. -/
def tokenSlice (t : List String) (i j : Nat) : List String :=
  (t.drop i).take (j - i)

end ResponseResumer


namespace CheckpointSaver

/-- An HTTP response as seen by the saver: status code and body text. -/
structure HttpResp where
  status : Nat
  body : String
deriving Repr, DecidableEq

/-- Whether the pattern occurs at the start of the text. -/
def startsWithList (pat : List Char) : List Char → Bool :=
  fun hay =>
    match pat, hay with
    | [], _ => true
    | _ :: _, [] => false
    | p :: ps, h :: hs => p == h && startsWithList ps hs

/-- Python substring membership (`pat in hay`) on character lists. -/
def containsSubList (pat : List Char) : List Char → Bool
  | [] => startsWithList pat []
  | c :: rest => startsWithList pat (c :: rest) || containsSubList pat rest

/-- Python `pat in hay` on strings. -/
def containsSubstring (hay pat : String) : Bool :=
  containsSubList pat.toList hay.toList

/-- Python `str.lower()` restricted to the ASCII range the error bodies
use, executable by the kernel. -/
def toLowerAscii (s : String) : String :=
  String.mk (s.toList.map (fun c =>
    if 65 ≤ c.toNat && c.toNat ≤ 90 then Char.ofNat (c.toNat + 32) else c))

/-- `_is_duplicate_conversation_error`: a 5xx whose lowercased body
mentions both the Postgres duplicate-key text and the conversation
groups primary key. -/
def isDuplicateConversationError (r : HttpResp) : Bool :=
  if r.status < 500 then false
  else
    containsSubstring (toLowerAscii r.body) "duplicate key value violates unique constraint" &&
    containsSubstring (toLowerAscii r.body) "conversation_groups_pkey"

/-- The typed-blob wire form produced by `_encode_typed`: a serializer
type tag and the base64 text of the serializer's bytes. -/
structure TypedBlob where
  type : String
  data : String
deriving Repr, DecidableEq

/-- One item of a memory-channel entry's content array.  `none` models a
missing (or non-string / non-dict) field of the underlying JSON dict. -/
structure ContentItem where
  checkpoint_id : Option String
  checkpoint_ns : Option String
  parent_checkpoint_id : Option String
  checkpoint : Option TypedBlob
  metadata : Option TypedBlob
deriving Repr, DecidableEq

/-- A conversation entry as returned by the service: server-assigned id
and creation timestamp, channel, content type and content array. -/
structure Entry where
  id : Option String
  createdAt : Option String
  channel : String
  contentType : String
  content : List ContentItem
deriving Repr, DecidableEq

/-- The external serializer (`self.serde`) together with the base64
transport: `dumpsV/loadsV` model `dumps_typed/loads_typed` at the
checkpoint type `V`, `dumpsM/loadsM` the same at the metadata type (a
dict with values of type `W`), and `b64enc/b64dec` model
`base64.b64encode/b64decode` on the serializer's raw bytes. -/
structure Serde (V W : Type) where
  dumpsV : V → String × List Nat
  loadsV : String × List Nat → V
  dumpsM : List (String × W) → String × List Nat
  loadsM : String × List Nat → List (String × W)
  b64enc : List Nat → String
  b64dec : String → List Nat

/-- `_encode_typed` for the checkpoint value. -/
def encodeTypedV (sd : Serde V W) (v : V) : TypedBlob :=
  { type := (sd.dumpsV v).1, data := sd.b64enc (sd.dumpsV v).2 }

/-- `_encode_typed` for the metadata value. -/
def encodeTypedM (sd : Serde V W) (m : List (String × W)) : TypedBlob :=
  { type := (sd.dumpsM m).1, data := sd.b64enc (sd.dumpsM m).2 }

/-- `_decode_typed` for the checkpoint value: a missing or malformed blob
raises (`invalid serialized payload`), otherwise the base64 text is
decoded and handed to the serializer. -/
def decodeTypedV (sd : Serde V W) : Option TypedBlob → Except String V
  | none => .error "invalid serialized payload"
  | some blob => .ok (sd.loadsV (blob.type, sd.b64dec blob.data))

/-- `_decode_typed` for the metadata value. -/
def decodeTypedM (sd : Serde V W) : Option TypedBlob → Except String (List (String × W))
  | none => .error "invalid serialized payload"
  | some blob => .ok (sd.loadsM (blob.type, sd.b64dec blob.data))

/-- `CHECKPOINT_CONTENT_TYPE`. -/
def CHECKPOINT_CONTENT_TYPE : String := "LangGraph/checkpoint"

/-- `_entry_content_item`: the first content item of an entry whose
content type is the checkpoint content type; `none` otherwise. -/
def entryContentItem (e : Entry) : Option ContentItem :=
  if e.contentType ≠ CHECKPOINT_CONTENT_TYPE then none
  else e.content.head?

/-- Python string comparison (lexicographic by code point) on character
lists, executable by the kernel. -/
def charListLt : List Char → List Char → Bool
  | [], [] => false
  | [], _ :: _ => true
  | _ :: _, [] => false
  | a :: as, b :: bs =>
    if a.toNat < b.toNat then true
    else if b.toNat < a.toNat then false
    else charListLt as bs

/-- Python `s < t` on strings. -/
def strLt (s t : String) : Bool := charListLt s.toList t.toList

/-- Python `s <= t` on strings. -/
def strLe (s t : String) : Bool := !(strLt t s)

/-- `_entry_sort_key`: the creation timestamp when it is a string,
otherwise the stringified entry id (empty string when absent). -/
def entrySortKey (e : Entry) : String :=
  match e.createdAt with
  | some c => c
  | none => e.id.getD ""

/-- Python `max(..., key=...)` over a running maximum: a later element
replaces the current one only when its key is strictly greater, so ties
keep the earliest element. -/
def pyMaxBy (key : Entry → String) (a : Entry) : List Entry → Entry
  | [] => a
  | b :: rest => pyMaxBy key (if strLt (key a) (key b) then b else a) rest

/-- Python `max(list, key=...)`: `none` on the empty list. -/
def pyMax (key : Entry → String) : List Entry → Option Entry
  | [] => none
  | a :: rest => some (pyMaxBy key a rest)

/-- The `configurable` pointer `{thread_id, checkpoint_ns, checkpoint_id}`. -/
structure Cfg where
  thread_id : String
  checkpoint_ns : String
  checkpoint_id : String
deriving Repr, DecidableEq

/-- `CheckpointTuple` as built by `_checkpoint_tuple_from_entry`
(`pending_writes` is always the empty list and is omitted). -/
structure CkptTuple (V W : Type) where
  config : Cfg
  checkpoint : V
  metadata : List (String × W)
  parent_config : Option Cfg

/-- `_checkpoint_tuple_from_entry`: decode the first content item,
falling back to the stringified entry id (`"None"` when absent, as
`str(None)`) when the item has no string checkpoint id, and build the
parent pointer when a non-empty parent id is present. -/
def checkpointTupleFromEntry (sd : Serde V W) (threadId ns : String) (e : Entry) :
    Except String (CkptTuple V W) :=
  match entryContentItem e with
  | none => .error "invalid checkpoint entry payload"
  | some item =>
    (decodeTypedV sd item.checkpoint).bind fun cp =>
    (decodeTypedM sd item.metadata).bind fun md =>
    let checkpointId :=
      match item.checkpoint_id with
      | some s => s
      | none =>
        match e.id with
        | some s => s
        | none => "None"
    let parentConfig :=
      match item.parent_checkpoint_id with
      | some p => if p ≠ "" then some (Cfg.mk threadId ns p) else none
      | none => none
    .ok ⟨⟨threadId, ns, checkpointId⟩, cp, md, parentConfig⟩

/-- Outcome of a GET against the service, as discriminated by the saver:
404, another error status (the saver raises with the body), or a parsed
JSON value. -/
inductive SvcResp (α : Type) where
  | notFound
  | err (status : Nat) (body : String)
  | ok (val : α)
deriving Repr

/-- `get_tuple` when a checkpoint id is present: fetch that single entry;
404 means absent, another error raises, a namespace mismatch (or an entry
that is not a checkpoint) means absent. -/
def getTupleById (sd : Serde V W) (threadId ns checkpointId : String)
    (resp : SvcResp Entry) : Except String (Option (CkptTuple V W)) :=
  match resp with
  | .notFound => .ok none
  | .err _ body => .error body
  | .ok entry =>
    match entryContentItem entry with
    | none => .ok none
    | some item =>
      if item.checkpoint_ns.getD "" ≠ ns then .ok none
      else (checkpointTupleFromEntry sd threadId ns entry).map some

/-- The memory-channel entries whose first content item is a checkpoint
in the requested namespace. -/
def matchingCheckpoints (ns : String) (entries : List Entry) : List Entry :=
  entries.filter (fun e =>
    match entryContentItem e with
    | none => false
    | some item => item.checkpoint_ns.getD "" == ns)

/-- `get_tuple` when no checkpoint id is given: list the memory channel,
keep the checkpoints of the namespace, and decode the maximum by
`_entry_sort_key`; an empty selection means absent. -/
def getTupleLatest (sd : Serde V W) (threadId ns : String)
    (resp : SvcResp (List Entry)) : Except String (Option (CkptTuple V W)) :=
  match resp with
  | .notFound => .ok none
  | .err _ body => .error body
  | .ok entries =>
    match pyMax entrySortKey (matchingCheckpoints ns entries) with
    | none => .ok none
    | some latest => (checkpointTupleFromEntry sd threadId ns latest).map some

/-- `get_tuple`: dispatch on the truthiness of the checkpoint id from the
config (an empty id counts as absent). -/
def getTuple (sd : Serde V W) (threadId ns : String) (checkpointId : Option String)
    (respById : String → SvcResp Entry) (respList : SvcResp (List Entry)) :
    Except String (Option (CkptTuple V W)) :=
  match checkpointId with
  | some cid =>
    if cid ≠ "" then getTupleById sd threadId ns cid (respById cid)
    else getTupleLatest sd threadId ns respList
  | none => getTupleLatest sd threadId ns respList

/-- The client-side metadata filter: every filter key must map, under
`metadata.get`, to the filter's value (`none` plays Python `None`). -/
def matchesFilter [DecidableEq W] (md : List (String × W))
    (fltr : List (String × Option W)) : Bool :=
  fltr.all (fun kv => decide (md.lookup kv.1 = kv.2))

/-- The body of the selection loop in `list` for a single entry: skip
entries that are not checkpoints of the namespace, skip the entry whose
checkpoint id equals a truthy `before` cursor id, and when a non-empty
filter is given decode the metadata (which can raise) and match it. -/
def keepEntry [DecidableEq W] (sd : Serde V W) (ns : String)
    (beforeId : Option String) (fltr : Option (List (String × Option W)))
    (e : Entry) : Except String Bool :=
  match entryContentItem e with
  | none => .ok false
  | some item =>
    if item.checkpoint_ns.getD "" ≠ ns then .ok false
    else if (match beforeId with
             | some b => b ≠ "" && item.checkpoint_id == some b
             | none => false) then .ok false
    else
      match fltr with
      | none => .ok true
      | some fs =>
        if fs.isEmpty then .ok true
        else (decodeTypedM sd item.metadata).map (fun md => matchesFilter md fs)

/-- The selection loop of `list` over the listed entries, in order. -/
def selectEntries [DecidableEq W] (sd : Serde V W) (ns : String)
    (beforeId : Option String) (fltr : Option (List (String × Option W))) :
    List Entry → Except String (List Entry)
  | [] => .ok []
  | e :: rest =>
    (keepEntry sd ns beforeId fltr e).bind fun keep =>
    (selectEntries sd ns beforeId fltr rest).map fun tail =>
      if keep then e :: tail else tail

/-- Insert an entry into a newest-first sorted list, before the first
element whose key is not greater (so an earlier-listed entry stays ahead
of later ones with an equal key). -/
def insertNewestFirst (e : Entry) : List Entry → List Entry
  | [] => [e]
  | x :: xs =>
    if strLe (entrySortKey x) (entrySortKey e) then e :: x :: xs
    else x :: insertNewestFirst e xs

/-- Python `checkpoints.sort(key=..., reverse=True)`: the stable sort,
newest first (ties keep the listing order), as a structural insertion
sort, which computes the same sequence. -/
def sortNewestFirst : List Entry → List Entry
  | [] => []
  | e :: rest => insertNewestFirst e (sortNewestFirst rest)

/-- Python `checkpoints[:limit]` for an optional limit. -/
def applyLimit (limit : Option Nat) (entries : List Entry) : List Entry :=
  match limit with
  | some n => entries.take n
  | none => entries

/-- Decoding of the selected entries into checkpoint tuples, in order. -/
def tuplesFromEntries (sd : Serde V W) (threadId ns : String) :
    List Entry → Except String (List (CkptTuple V W))
  | [] => .ok []
  | e :: rest =>
    (checkpointTupleFromEntry sd threadId ns e).bind fun t =>
    (tuplesFromEntries sd threadId ns rest).map fun ts => t :: ts

/-- `list`: a missing config yields the empty sequence; any listing
response with status at least 400 (404 included) yields the empty
sequence; otherwise the entries are selected, sorted newest first,
truncated, and decoded. -/
def listCheckpoints [DecidableEq W] (sd : Serde V W)
    (cfg : Option (String × String))
    (fltr : Option (List (String × Option W))) (beforeId : Option String)
    (limit : Option Nat) (resp : SvcResp (List Entry)) :
    Except String (List (CkptTuple V W)) :=
  match cfg with
  | none => .ok []
  | some (threadId, ns) =>
    match resp with
    | .notFound => .ok []
    | .err _ _ => .ok []
    | .ok entries =>
      (selectEntries sd ns beforeId fltr entries).bind fun selected =>
      tuplesFromEntries sd threadId ns (applyLimit limit (sortNewestFirst selected))

end CheckpointSaver

namespace CheckpointSaver

/-- The JSON body of the append request issued by `put`. -/
structure AppendPayload where
  channel : String
  contentType : String
  content : List ContentItem
  forkedAtConversationId : Option String
  forkedAtEntryId : Option String
deriving Repr, DecidableEq

/-- A request issued by `put`, in order. -/
inductive PutReq where
  | appendEntry (convId : String) (payload : AppendPayload)
  | createConversation (convId : String) (title : String)
deriving Repr, DecidableEq

/-- The remote service as `put` interacts with it: each call takes and
returns a service state (so races and deterministic servers are both
instances) and produces one HTTP response. -/
structure Service (σ : Type) where
  append : σ → String → AppendPayload → σ × HttpResp
  create : σ → String → String → σ × HttpResp

/-- Python truthiness of an optional string. -/
def truthy (o : Option String) : Bool := o.getD "" ≠ ""

/-- `_payload_with_fork_metadata`: attach the fork markers only when both
are present and non-empty; otherwise return the payload unchanged. -/
def payloadWithForkMetadata (payload : AppendPayload)
    (forkedAtConversationId forkedAtEntryId : Option String) : AppendPayload :=
  if truthy forkedAtConversationId && truthy forkedAtEntryId then
    { payload with
      forkedAtConversationId := forkedAtConversationId
      forkedAtEntryId := forkedAtEntryId }
  else payload

/-- The entry payload built by `put`: one memory-channel content item
carrying the ids and the two encoded blobs.  `md` is the metadata the
source passes to `_encode_typed`, i.e. the value of the external
`get_checkpoint_metadata(config, metadata)`. -/
def putPayload (sd : Serde V W) (ns : String) (parentCheckpointId : Option String)
    (checkpointId : String) (cp : V) (md : List (String × W)) : AppendPayload :=
  { channel := "memory"
    contentType := CHECKPOINT_CONTENT_TYPE
    content := [{ checkpoint_id := some checkpointId
                  checkpoint_ns := some ns
                  parent_checkpoint_id := parentCheckpointId
                  checkpoint := some (encodeTypedV sd cp)
                  metadata := some (encodeTypedM sd md) }]
    forkedAtConversationId := none
    forkedAtEntryId := none }

/-- What `put` produced: the service state after all requests, the
requests issued in order, the response the final status check inspects,
and either the raised body or the returned pointer. -/
structure PutOutcome (σ : Type) where
  state : σ
  requests : List PutReq
  finalResp : HttpResp
  result : Except String Cfg

/-- The tail of `put`: raise on any status of 400 or more, otherwise
return the new pointer. -/
def putFinish (s : σ) (threadId ns checkpointId : String) (current : HttpResp)
    (reqs : List PutReq) : PutOutcome σ :=
  if 400 ≤ current.status then ⟨s, reqs, current, .error current.body⟩
  else ⟨s, reqs, current, .ok ⟨threadId, ns, checkpointId⟩⟩

/-- The duplicate-conflict step of `put`: when the current response is a
duplicate-conversation error, treat the conversation as existing and
retry the append once, then finish. -/
def putAfterCreate (svc : Service σ) (s : σ) (convId threadId ns checkpointId : String)
    (payload : AppendPayload) (current : HttpResp) (reqs : List PutReq) : PutOutcome σ :=
  if isDuplicateConversationError current then
    let a := svc.append s convId payload
    putFinish a.1 threadId ns checkpointId a.2 (reqs ++ [.appendEntry convId payload])
  else putFinish s threadId ns checkpointId current reqs

/-- The creation step of `put`: when the current response is still a 404,
issue the explicit create-conversation call (its response is ignored) and
retry the original append, then continue with the conflict step. -/
def putAfterRetry (svc : Service σ) (s : σ) (convId threadId ns checkpointId : String)
    (payload : AppendPayload) (current : HttpResp) (reqs : List PutReq) : PutOutcome σ :=
  if current.status == 404 then
    let c := svc.create s convId ("Python checkpoint " ++ threadId)
    let a := svc.append c.1 convId payload
    putAfterCreate svc a.1 convId threadId ns checkpointId payload a.2
      (reqs ++ [.createConversation convId ("Python checkpoint " ++ threadId),
                .appendEntry convId payload])
  else putAfterCreate svc s convId threadId ns checkpointId payload current reqs

/-- `put`: append the entry; on a 404 retry once with the fork metadata
attached (when the call is part of a fork), then run the creation and
conflict steps and the final status check. -/
def putCheckpoint (svc : Service σ) (s0 : σ) (convIdOf : String → String)
    (threadId ns : String) (parentCheckpointId : Option String)
    (checkpointId : String) (sd : Serde V W) (cp : V) (md : List (String × W))
    (forkConv forkEntry : Option String) : PutOutcome σ :=
  let convId := convIdOf threadId
  let payload := putPayload sd ns parentCheckpointId checkpointId cp md
  let a1 := svc.append s0 convId payload
  if a1.2.status == 404 then
    let fp := payloadWithForkMetadata payload forkConv forkEntry
    let a2 := svc.append a1.1 convId fp
    putAfterRetry svc a2.1 convId threadId ns checkpointId payload a2.2
      [.appendEntry convId payload, .appendEntry convId fp]
  else
    putAfterRetry svc a1.1 convId threadId ns checkpointId payload a1.2
      [.appendEntry convId payload]

/-- A response oracle as a service: requests consume consecutive indices
and the oracle fixes every response in advance. -/
def oracleService (o : Nat → HttpResp) : Service Nat :=
  { append := fun n _ _ => (n + 1, o n)
    create := fun n _ _ => (n + 1, o n) }

/-- Modelled from the spec: the remote entry service itself belongs to
this repository but its sources are not present here, so its state is
modelled from sections 3 and 6 of the specification: conversations keyed
by id hold an append-only entry list, and a clock supplies the
server-assigned creation timestamps. -/
structure Server where
  convs : List (String × List Entry)
  clock : Nat

/-- Modelled from the spec: the entry the server stores for an append.
The entry id is server-assigned; section 4.1 requires a checkpoint entry
to be retrievable via the get-entry-by-id route using the checkpoint id
from the pointer that `put` returned, so the server model assigns the
checkpoint id carried in the content as the entry id (a fresh id when
there is none). -/
def mkEntry (tsOf : Nat → String) (clock : Nat) (payload : AppendPayload) : Entry :=
  { id :=
      match payload.content.head? with
      | some item =>
        match item.checkpoint_id with
        | some cid => some cid
        | none => some ("entry-" ++ tsOf clock)
      | none => some ("entry-" ++ tsOf clock)
    createdAt := some (tsOf clock)
    channel := payload.channel
    contentType := payload.contentType
    content := payload.content }

/-- Replace a conversation's entry list. -/
def updateConv (convs : List (String × List Entry)) (convId : String)
    (entries : List Entry) : List (String × List Entry) :=
  convs.map (fun p => if p.1 = convId then (p.1, entries) else p)

/-- Modelled from the spec: `POST /conversations/{id}/entries` — 404 when
the conversation is absent, otherwise the entry is appended and the
clock advances. -/
def svcAppend (tsOf : Nat → String) (s : Server) (convId : String)
    (payload : AppendPayload) : Server × HttpResp :=
  match s.convs.lookup convId with
  | none => (s, ⟨404, "conversation not found"⟩)
  | some entries =>
    (⟨updateConv s.convs convId (entries ++ [mkEntry tsOf s.clock payload]),
      s.clock + 1⟩,
     ⟨201, ""⟩)

/-- Modelled from the spec: `POST /conversations` — creates the
conversation when absent; an existing id reports a conflict (the caller
ignores this response). -/
def svcCreate (s : Server) (convId : String) (title : String) : Server × HttpResp :=
  match s.convs.lookup convId with
  | some _ => (s, ⟨409, title⟩)
  | none => (⟨s.convs ++ [(convId, [])], s.clock⟩, ⟨201, title⟩)

/-- Modelled from the spec: `GET /conversations/{id}/entries/{entryId}` —
the single entry with that id, 404 when absent. -/
def svcGetEntry (s : Server) (convId entryId : String) : SvcResp Entry :=
  match s.convs.lookup convId with
  | none => .notFound
  | some entries =>
    match entries.find? (fun e => e.id == some entryId) with
    | none => .notFound
    | some e => .ok e

/-- Modelled from the spec: `GET /conversations/{id}/entries?channel=memory`
— the conversation's entries on the memory channel, 404 when the
conversation is absent. -/
def svcListEntries (s : Server) (convId : String) : SvcResp (List Entry) :=
  match s.convs.lookup convId with
  | none => .notFound
  | some entries => .ok (entries.filter (fun e => e.channel == "memory"))

/-- Modelled from the spec: the deterministic entry service. -/
def entryService (tsOf : Nat → String) : Service Server :=
  { append := svcAppend tsOf
    create := svcCreate }

/-- A concrete serializer used to evaluate theorems on closed inputs:
checkpoints are naturals, metadata values are naturals, bytes travel as
characters shifted into the letter range. -/
def witnessSerde : Serde Nat Nat :=
  { dumpsV := fun n => ("n", [n])
    loadsV := fun p => p.2.headD 0
    dumpsM := fun l => ("m", l.map fun kv => kv.2)
    loadsM := fun p => p.2.map fun n => ("k", n)
    b64enc := fun bs => String.mk (bs.map (fun n => Char.ofNat (n + 65)))
    b64dec := fun s => s.toList.map (fun c => c.toNat - 65) }

/-- A checkpoint entry as the service would return it, used to evaluate
theorems on closed inputs. -/
def sampleEntry (entryId checkpointId ts : String) : Entry :=
  { id := some entryId
    createdAt := some ts
    channel := "memory"
    contentType := CHECKPOINT_CONTENT_TYPE
    content := [{ checkpoint_id := some checkpointId
                  checkpoint_ns := some ""
                  parent_checkpoint_id := none
                  checkpoint := some ⟨"n", "F"⟩
                  metadata := some ⟨"m", ""⟩ }] }

/-- The ordering relation of the spec sentence, stated from its words:
entries compare by `createdAt`, falling back to `id` when the timestamps
are absent or equal. -/
def specOrderLE (e1 e2 : Entry) : Bool :=
  match e1.createdAt, e2.createdAt with
  | some c1, some c2 =>
    if c1 = c2 then strLe (e1.id.getD "") (e2.id.getD "")
    else strLe c1 c2
  | _, _ => strLe (e1.id.getD "") (e2.id.getD "")

/-- The pure selection decision of `list` when no metadata filter is
given. -/
def keepB (ns : String) (beforeId : Option String) (e : Entry) : Bool :=
  match entryContentItem e with
  | none => false
  | some item =>
    if item.checkpoint_ns.getD "" ≠ ns then false
    else if (match beforeId with
             | some b => b ≠ "" && item.checkpoint_id == some b
             | none => false) then false
    else true

/-- A response oracle describing a lazily created conversation that races
with a concurrent create: two 404s, a create, a duplicate-key conflict,
then success. -/
def c4OracleW : Nat → HttpResp := fun n =>
  match n with
  | 0 => ⟨404, "conversation not found"⟩
  | 1 => ⟨404, "conversation not found"⟩
  | 2 => ⟨201, ""⟩
  | 3 => ⟨500, "ERROR: duplicate key value violates unique constraint \"conversation_groups_pkey\""⟩
  | _ => ⟨201, ""⟩

end CheckpointSaver

namespace ResponseResumer

lemma tokenSlice_nil (t : List String) (i : Nat) : tokenSlice t i i = [] := by
  simp [tokenSlice]

lemma tokenSlice_single (t : List String) (i : Nat) (h : i < t.length) :
    tokenSlice t i (i + 1) = [t.get ⟨i, h⟩] := by
  unfold tokenSlice
  have h1 : i + 1 - i = 1 := by omega
  rw [h1, List.take_one_drop_eq_of_lt_length h]

lemma tokenSlice_append_of_le (t ext : List String) (i j : Nat) (hij : i ≤ j)
    (hj : j ≤ t.length) : tokenSlice (t ++ ext) i j = tokenSlice t i j := by
  unfold tokenSlice
  rw [List.drop_append_of_le_length (by omega)]
  rw [List.take_append_of_le_length (by simp; omega)]

lemma tokenSlice_trans (t : List String) (i j k : Nat) (h1 : i ≤ j) (h2 : j ≤ k) :
    tokenSlice t i j ++ tokenSlice t j k = tokenSlice t i k := by
  unfold tokenSlice
  have hdrop : t.drop j = (t.drop i).drop (j - i) := by
    rw [List.drop_drop]; congr 1; omega
  rw [hdrop, ← List.take_add]
  congr 1; omega

lemma sysStep_cancelled (s : ResumeState) (st : SysStep) (h : s.cancelled = true) :
    (sysStep s st).1.cancelled = true ∧ (sysStep s st).2 = none := by
  cases st <;> simp [sysStep, streamStateStep, produceChunk, h]

lemma runSys_cancelled (s : ResumeState) (steps : List SysStep) (h : s.cancelled = true) :
    (runSys s steps).2 = [] ∧ (runSys s steps).1.cancelled = true := by
  induction steps generalizing s with
  | nil => exact ⟨rfl, h⟩
  | cons st rest ih =>
    obtain ⟨hc, hout⟩ := sysStep_cancelled s st h
    obtain ⟨h1, h2⟩ := ih (sysStep s st).1 hc
    simp [runSys, hout, h1, h2]

lemma lookup_map_overwrite {β : Type} (m : List (String × β)) (cid : String)
    (v : β) (h : m.lookup cid ≠ none) :
    (m.map (fun p => if p.1 = cid then (p.1, v) else p)).lookup cid = some v := by
  induction m with
  | nil => simp [List.lookup] at h
  | cons p rest ih =>
    obtain ⟨k, w⟩ := p
    by_cases hp : k = cid
    · subst hp
      simp only [List.map, if_pos rfl]
      simp [List.lookup]
    · have hcp : (cid == k) = false := by simp [Ne.symm hp]
      simp only [List.lookup, hcp] at h
      simp only [List.map, if_neg hp]
      simpa [List.lookup, hcp] using ih h

lemma lookup_cancel_self (m : StateMap) (cid : String) (s : ResumeState)
    (h1 : m.lookup cid = some s) (h2 : s.complete = false) :
    (cancel m cid).lookup cid = some { s with cancelled := true, wake := true } := by
  unfold cancel
  simp only [h1, h2, Bool.false_eq_true, if_false]
  exact lookup_map_overwrite m cid _ (by rw [h1]; simp)

end ResponseResumer

namespace ResponseResumer

lemma sysStep_slice (s : ResumeState) (st : SysStep) (h : s.index ≤ s.tokens.length) :
    s.index ≤ (sysStep s st).1.index ∧
    (sysStep s st).1.index ≤ (sysStep s st).1.tokens.length ∧
    (∃ ext, (sysStep s st).1.tokens = s.tokens ++ ext) ∧
    ((sysStep s st).2.toList).map (fun d => d.2) =
      tokenSlice (sysStep s st).1.tokens s.index (sysStep s st).1.index := by
  cases st with
  | read1 =>
    simp only [sysStep]
    unfold streamStateStep
    split_ifs with h1 h2 h3 <;> dsimp only
    · exact ⟨le_refl _, h, ⟨[], by simp⟩, (tokenSlice_nil _ _).symm⟩
    · exact ⟨Nat.le_succ _, h2, ⟨[], by simp⟩,
        by simp [List.map]; exact (tokenSlice_single _ _ h2).symm⟩
    · exact ⟨le_refl _, h, ⟨[], by simp⟩, (tokenSlice_nil _ _).symm⟩
    · exact ⟨le_refl _, h, ⟨[], by simp⟩, (tokenSlice_nil _ _).symm⟩
  | read2 =>
    simp only [sysStep]
    unfold streamStateStep
    split_ifs with h1 h2 h3 <;> dsimp only
    · exact ⟨le_refl _, h, ⟨[], by simp⟩, (tokenSlice_nil _ _).symm⟩
    · exact ⟨Nat.le_succ _, h2, ⟨[], by simp⟩,
        by simp [List.map]; exact (tokenSlice_single _ _ h2).symm⟩
    · exact ⟨le_refl _, h, ⟨[], by simp⟩, (tokenSlice_nil _ _).symm⟩
    · exact ⟨le_refl _, h, ⟨[], by simp⟩, (tokenSlice_nil _ _).symm⟩
  | produce chunk =>
    simp only [sysStep]
    unfold produceChunk
    split_ifs with h1 h2 <;> dsimp only
    · exact ⟨le_refl _, h, ⟨[], by simp⟩, (tokenSlice_nil _ _).symm⟩
    · exact ⟨le_refl _, by simp; omega, ⟨[chunk], rfl⟩, (tokenSlice_nil _ _).symm⟩
    · exact ⟨le_refl _, by simpa using h, ⟨[], by simp⟩, (tokenSlice_nil _ _).symm⟩

lemma runSys_slice (s : ResumeState) (steps : List SysStep)
    (h : s.index ≤ s.tokens.length) :
    s.index ≤ (runSys s steps).1.index ∧
    (runSys s steps).1.index ≤ (runSys s steps).1.tokens.length ∧
    (∃ ext, (runSys s steps).1.tokens = s.tokens ++ ext) ∧
    ((runSys s steps).2).map (fun d => d.2) =
      tokenSlice (runSys s steps).1.tokens s.index (runSys s steps).1.index := by
  induction steps generalizing s with
  | nil =>
    exact ⟨le_refl _, h, ⟨[], by simp [runSys]⟩, by simp [runSys, tokenSlice_nil]⟩
  | cons st rest ih =>
    obtain ⟨h1, h2, ⟨ext1, hext1⟩, h4⟩ := sysStep_slice s st h
    obtain ⟨g1, g2, ⟨ext2, hext2⟩, g4⟩ := ih (sysStep s st).1 h2
    have hfst : (runSys s (st :: rest)).1 = (runSys (sysStep s st).1 rest).1 := rfl
    have hsnd : (runSys s (st :: rest)).2 =
        (sysStep s st).2.toList ++ (runSys (sysStep s st).1 rest).2 := rfl
    refine ⟨?_, ?_, ?_, ?_⟩
    · rw [hfst]; exact h1.trans g1
    · rw [hfst]; exact g2
    · rw [hfst]; exact ⟨ext1 ++ ext2, by rw [hext2, hext1, List.append_assoc]⟩
    · rw [hfst, hsnd, List.map_append, h4, g4]
      have hmid : tokenSlice (sysStep s st).1.tokens s.index (sysStep s st).1.index =
          tokenSlice (runSys (sysStep s st).1 rest).1.tokens s.index (sysStep s st).1.index := by
        rw [hext2, tokenSlice_append_of_le _ _ _ _ h1 h2]
      rw [hmid, tokenSlice_trans _ _ _ _ h1 g1]

end ResponseResumer

namespace ResponseResumer

lemma produceLoop_tokens (chunks : List String) (s : ResumeState) :
    ∃ rest, (produceLoop s chunks).tokens = s.tokens ++ rest := by
  induction chunks generalizing s with
  | nil => exact ⟨[], by simp [produceLoop]⟩
  | cons c cs ih =>
    unfold produceLoop
    by_cases h1 : s.cancelled = true
    · rw [if_pos h1]
      exact ⟨[], by simp⟩
    · rw [if_neg h1]
      obtain ⟨rest, hrest⟩ := ih { s with
        tokens := s.tokens ++ (if c ≠ "" then [c] else []), wake := true }
      refine ⟨(if c ≠ "" then [c] else []) ++ rest, ?_⟩
      rw [hrest]
      exact (List.append_assoc _ _ _)

lemma sysStep_nonempty (s : ResumeState) (st : SysStep)
    (h : ∀ t ∈ s.tokens, t ≠ "") :
    (∀ t ∈ (sysStep s st).1.tokens, t ≠ "") ∧
    (∀ d ∈ (sysStep s st).2.toList, d.2 ≠ "") := by
  cases st with
  | read1 =>
    simp only [sysStep]
    unfold streamStateStep
    split_ifs with h1 h2 h3 <;> dsimp only
    · exact ⟨h, by simp⟩
    · exact ⟨h, by simpa using h _ (s.tokens.get_mem _ h2)⟩
    · exact ⟨h, by simp⟩
    · exact ⟨h, by simp⟩
  | read2 =>
    simp only [sysStep]
    unfold streamStateStep
    split_ifs with h1 h2 h3 <;> dsimp only
    · exact ⟨h, by simp⟩
    · exact ⟨h, by simpa using h _ (s.tokens.get_mem _ h2)⟩
    · exact ⟨h, by simp⟩
    · exact ⟨h, by simp⟩
  | produce chunk =>
    simp only [sysStep]
    unfold produceChunk
    split_ifs with h1 h2 <;> dsimp only
    · exact ⟨h, by simp⟩
    · refine ⟨?_, by simp⟩
      intro t ht
      have ht2 : t ∈ s.tokens ∨ t = chunk := by simpa using ht
      rcases ht2 with hmem | hmem
      · exact h t hmem
      · subst hmem; exact h2
    · refine ⟨?_, by simp⟩
      intro t ht
      exact h t (by simpa using ht)

/-- C2: as stated the claim is false: the live reader and a replay reader
share the single cursor stored on `_ResumeState`, so with two tokens
buffered and a completed stream, an alternating schedule delivers token
one only to the first reader and token two only to the second: the two
observed sequences differ. -/
theorem C2_counterexample :
    seenBy true (runSys ⟨["a", "b"], 0, false, true, false⟩
        [.read1, .read2, .read1, .read2]).2 = ["a"] ∧
    seenBy false (runSys ⟨["a", "b"], 0, false, true, false⟩
        [.read1, .read2, .read1, .read2]).2 = ["b"] ∧
    seenBy true (runSys ⟨["a", "b"], 0, false, true, false⟩
        [.read1, .read2, .read1, .read2]).2 ≠
      seenBy false (runSys ⟨["a", "b"], 0, false, true, false⟩
        [.read1, .read2, .read1, .read2]).2 := by
  refine ⟨rfl, rfl, ?_⟩
  decide

/-- C2 (amended): the readers of one resume state share a single cursor;
under any schedule of reader pulls and producer appends, the tokens
delivered across all readers, in delivery order, are exactly the
contiguous slice of the shared append-only sequence between the initial
and final cursor positions (so no token is duplicated and none is skipped
by the union of the readers), and once the state is complete and the
cursor has reached the end every further pull terminates the stream. -/
theorem C2_shared_cursor (s : ResumeState) (steps : List SysStep)
    (h : s.index ≤ s.tokens.length) :
    ((runSys s steps).2).map (fun d => d.2) =
      tokenSlice (runSys s steps).1.tokens s.index (runSys s steps).1.index ∧
    s.index ≤ (runSys s steps).1.index ∧
    (runSys s steps).1.index ≤ (runSys s steps).1.tokens.length ∧
    (∃ ext, (runSys s steps).1.tokens = s.tokens ++ ext) ∧
    (∀ s2 : ResumeState, s2.complete = true → s2.cancelled = false →
      s2.tokens.length ≤ s2.index → streamStateStep s2 = .done s2) := by
  obtain ⟨a, b, c, d⟩ := runSys_slice s steps h
  refine ⟨d, a, b, c, ?_⟩
  intro s2 hc hnc hlen
  unfold streamStateStep
  rw [if_neg (by simp [hnc]), dif_neg (by omega), if_pos hc]

/-- C2 witness: the amended statement evaluated on a fresh state with one
produced token pulled by reader one. -/
theorem C2_shared_cursor_witness :
    freshState.index ≤ freshState.tokens.length ∧
    ((runSys freshState [.produce "a", .read1]).2).map (fun d => d.2) =
      tokenSlice (runSys freshState [.produce "a", .read1]).1.tokens
        freshState.index (runSys freshState [.produce "a", .read1]).1.index :=
  ⟨by decide, (C2_shared_cursor freshState [.produce "a", .read1] (by decide)).1⟩

/-- C3: as stated the claim is false: `replay` of an in-progress state
whose shared cursor has already advanced past the first produced token
returns a stream whose first pull yields the second token, not a stream
starting at position 0. -/
theorem C3_counterexample :
    replay [("c", ⟨["a", "b"], 1, false, false, false⟩)] "c" =
      some ⟨["a", "b"], 1, false, false, false⟩ ∧
    streamStateStep ⟨["a", "b"], 1, false, false, false⟩ =
      .yield "b" ⟨["a", "b"], 2, false, false, false⟩ ∧
    (["a", "b"] : List String).head? = some "a" ∧ "b" ≠ "a" := by
  refine ⟨rfl, ?_, rfl, by decide⟩
  decide

/-- C3 (amended): `replay` fails with a not-found signal exactly when no
resume state exists for the id or the state is already complete or
cancelled; otherwise it returns a stream over the shared state that
continues from the current shared cursor position (not necessarily
position 0), yielding the buffered token at that cursor when one exists,
and continuing live afterwards. -/
theorem C3_replay (m : StateMap) (cid : String) :
    (replay m cid = none ↔
      (m.lookup cid = none ∨
        ∃ s, m.lookup cid = some s ∧ (s.complete || s.cancelled) = true)) ∧
    (∀ s, replay m cid = some s →
      m.lookup cid = some s ∧ s.complete = false ∧ s.cancelled = false ∧
      ∀ h : s.index < s.tokens.length,
        streamStateStep s = .yield (s.tokens.get ⟨s.index, h⟩)
          { s with index := s.index + 1 }) := by
  unfold replay
  cases hm : m.lookup cid with
  | none =>
    refine ⟨⟨fun _ => Or.inl rfl, fun _ => rfl⟩, fun s hs => by simp at hs⟩
  | some s0 =>
    dsimp only
    by_cases hterm : (s0.complete || s0.cancelled) = true
    · rw [if_pos hterm]
      refine ⟨⟨fun _ => Or.inr ⟨s0, rfl, hterm⟩, fun _ => rfl⟩, fun s hs => by simp at hs⟩
    · rw [if_neg hterm]
      constructor
      · constructor
        · intro hcon; exact absurd hcon (by simp)
        · rintro (hcon | ⟨s1, hs1, hs2⟩)
          · exact absurd hcon (by simp)
          · rw [Option.some_inj.mp hs1] at hterm; exact absurd hs2 hterm
      · intro s hs
        have hss : s0 = s := Option.some_inj.mp hs
        subst hss
        have hcomp : s0.complete = false := by
          cases hcv : s0.complete <;> simp_all
        have hcanc : s0.cancelled = false := by
          cases hcv : s0.cancelled <;> simp_all
        refine ⟨rfl, hcomp, hcanc, ?_⟩
        intro hlt
        unfold streamStateStep
        rw [if_neg (by simp [hcanc]), dif_pos hlt]

/-- C3 witness: the amended statement evaluated at a map whose only state
is complete, so replay signals not-found. -/
theorem C3_replay_witness :
    replay [("c", ⟨["a"], 1, false, true, false⟩)] "c" = none :=
  (C3_replay [("c", ⟨["a"], 1, false, true, false⟩)] "c").1.mpr
    (Or.inr ⟨⟨["a"], 1, false, true, false⟩, rfl, by decide⟩)

/-- C5: after `cancel` on an in-progress stream the state is marked
cancelled, and from it no schedule of reader pulls and producer steps ever
delivers another token to any reader, even though tokens may remain
buffered beyond the cursor. -/
theorem C5_cancel_stops_readers (m : StateMap) (cid : String) (s : ResumeState)
    (h1 : m.lookup cid = some s) (h2 : s.complete = false) :
    ∃ s2, (cancel m cid).lookup cid = some s2 ∧ s2.cancelled = true ∧
      ∀ steps : List SysStep, (runSys s2 steps).2 = [] := by
  refine ⟨{ s with cancelled := true, wake := true },
    lookup_cancel_self m cid s h1 h2, rfl, ?_⟩
  intro steps
  exact (runSys_cancelled _ steps rfl).1

/-- C5 witness: cancelling a stream with two unread buffered tokens. -/
theorem C5_cancel_stops_readers_witness :
    List.lookup "c" [("c", (⟨["a", "b"], 0, false, false, false⟩ : ResumeState))] =
      some ⟨["a", "b"], 0, false, false, false⟩ ∧
    (∃ s2, (cancel [("c", ⟨["a", "b"], 0, false, false, false⟩)] "c").lookup "c" = some s2 ∧
      s2.cancelled = true ∧ ∀ steps : List SysStep, (runSys s2 steps).2 = []) :=
  ⟨by decide,
    C5_cancel_stops_readers [("c", ⟨["a", "b"], 0, false, false, false⟩)] "c"
      ⟨["a", "b"], 0, false, false, false⟩ (by decide) rfl⟩

/-- C8: whatever chunks the token source yielded before finishing normally
or raising, `_produce_from_source` swallows the failure and its finally
step marks the state complete and sets the wake event, the tokens
buffered before the failure are preserved, and any reader whose cursor has
reached the end of the buffer then observes a clean end of stream. -/
theorem C8_producer_finally (s : ResumeState) (chunks : List String) :
    (produceFromSource s chunks).complete = true ∧
    (produceFromSource s chunks).wake = true ∧
    (∃ rest, (produceFromSource s chunks).tokens = s.tokens ++ rest) ∧
    (∀ n, (produceFromSource s chunks).cancelled = false →
      (produceFromSource s chunks).tokens.length ≤ n →
      streamStateStep { produceFromSource s chunks with index := n } =
        .done { produceFromSource s chunks with index := n }) := by
  refine ⟨rfl, rfl, ?_, ?_⟩
  · obtain ⟨rest, hrest⟩ := produceLoop_tokens chunks s
    exact ⟨rest, by simpa [produceFromSource] using hrest⟩
  · intro n hcanc hlen
    unfold streamStateStep
    rw [if_neg (by simpa using hcanc), dif_neg (by simpa using by omega)]
    rfl

/-- C8 witness: a source that yielded two chunks and then raised. -/
theorem C8_producer_finally_witness :
    (produceFromSource freshState ["a ", "b"]).complete = true :=
  (C8_producer_finally freshState ["a ", "b"]).1

/-- C10: starting from the fresh state registered by
`stream_from_source`, after any schedule of producer chunks (empty ones
included) and reader pulls, every token held in the shared sequence is
non-empty and every token delivered to any reader is non-empty: the
producer silently drops empty chunks. -/
theorem C10_no_empty_tokens (steps : List SysStep) :
    (∀ t ∈ (runSys freshState steps).1.tokens, t ≠ "") ∧
    (∀ d ∈ (runSys freshState steps).2, d.2 ≠ "") := by
  have main : ∀ (stepsv : List SysStep) (s : ResumeState), (∀ t ∈ s.tokens, t ≠ "") →
      (∀ t ∈ (runSys s stepsv).1.tokens, t ≠ "") ∧
      (∀ d ∈ (runSys s stepsv).2, d.2 ≠ "") := by
    intro stepsv
    induction stepsv with
    | nil =>
      intro s hs
      exact ⟨by simpa [runSys] using hs, by simp [runSys]⟩
    | cons st rest ih =>
      intro s hs
      obtain ⟨h1, h2⟩ := sysStep_nonempty s st hs
      obtain ⟨g1, g2⟩ := ih _ h1
      refine ⟨g1, ?_⟩
      intro d hd
      rcases List.mem_append.mp hd with hmem | hmem
      · exact h2 d hmem
      · exact g2 d hmem
  exact main steps freshState (by simp [freshState])

/-- C10 witness: a schedule that produces an empty chunk between two real
tokens delivers no empty token. -/
theorem C10_no_empty_tokens_witness :
    ∀ d ∈ (runSys freshState [.produce "a", .produce "", .read1, .read2]).2, d.2 ≠ "" :=
  (C10_no_empty_tokens [.produce "a", .produce "", .read1, .read2]).2

end ResponseResumer



namespace CheckpointSaver

lemma keepEntry_no_filter [DecidableEq W] (sd : Serde V W) (ns : String)
    (beforeId : Option String) (e : Entry) :
    keepEntry sd ns beforeId none e = .ok (keepB ns beforeId e) := by
  unfold keepEntry keepB
  cases entryContentItem e with
  | none => rfl
  | some item =>
    dsimp only
    split_ifs <;> rfl

lemma selectEntries_no_filter [DecidableEq W] (sd : Serde V W) (ns : String)
    (beforeId : Option String) (entries : List Entry) :
    selectEntries sd ns beforeId none entries =
      .ok (entries.filter (keepB ns beforeId)) := by
  induction entries with
  | nil => rfl
  | cons e rest ih =>
    unfold selectEntries
    rw [keepEntry_no_filter, ih]
    cases hk : keepB ns beforeId e <;>
      simp [Except.bind, Except.map, List.filter, hk]

lemma keepB_before (ns b : String) (hb : b ≠ "") (e : Entry) :
    keepB ns (some b) e =
      (keepB ns none e &&
        !((entryContentItem e).bind ContentItem.checkpoint_id == some b)) := by
  unfold keepB
  cases hitem : entryContentItem e with
  | none => rfl
  | some item =>
    dsimp only [Option.bind]
    by_cases hns : item.checkpoint_ns.getD "" ≠ ns
    · rw [if_pos hns, if_pos hns]; rfl
    · rw [if_neg hns, if_neg hns]
      by_cases hcid : (item.checkpoint_id == some b) = true
      · simp [hb, hcid]
      · simp [hb, Bool.eq_false_iff.mpr hcid]

/-- C9: `list` returns an empty sequence and raises nothing whenever the
entry-listing request does not succeed: a 404 and any other error status
both yield the empty result (and so does a missing config). -/
theorem C9_list_unknown_thread {V W : Type} [DecidableEq W] (sd : Serde V W)
    (cfg : Option (String × String))
    (fltr : Option (List (String × Option W))) (beforeId : Option String)
    (limit : Option Nat) (status : Nat) (body : String) :
    listCheckpoints sd cfg fltr beforeId limit .notFound = .ok [] ∧
    listCheckpoints sd cfg fltr beforeId limit (.err status body) = .ok [] := by
  cases cfg with
  | none => exact ⟨rfl, rfl⟩
  | some p => cases p; exact ⟨rfl, rfl⟩

/-- C7: as stated the claim is false: with three checkpoints written in
order, listing with `before` set to the second checkpoint's id excludes
only that entry — the first (older) checkpoint is still returned, even
though it is not newer than the cursor entry by the ordering rule. -/
theorem C7_counterexample :
    (listCheckpoints witnessSerde (some ("t", "")) none (some "c2") none
        (.ok [sampleEntry "e1" "c1" "2024-01-01",
              sampleEntry "e2" "c2" "2024-01-02",
              sampleEntry "e3" "c3" "2024-01-03"])).map
      (List.map (fun t => t.config.checkpoint_id)) = .ok ["c3", "c1"] ∧
    strLe (entrySortKey (sampleEntry "e1" "c1" "2024-01-01"))
      (entrySortKey (sampleEntry "e2" "c2" "2024-01-02")) = true := by
  constructor
  · rfl
  · decide

/-- C7 (amended): a truthy `before` cursor excludes exactly the entries
whose content checkpoint id equals the cursor id from the selection of
`list` — entries older than the cursor entry are still selected — and
`list` is the newest-first, truncated decoding of that selection. -/
theorem C7_before_excludes_exactly {V W : Type} [DecidableEq W] (sd : Serde V W)
    (ns b : String) (hb : b ≠ "") (entries : List Entry) :
    selectEntries sd ns (some b) none entries =
      .ok ((entries.filter (keepB ns none)).filter
        (fun e => !((entryContentItem e).bind ContentItem.checkpoint_id == some b))) ∧
    (∀ threadId : String, ∀ limit : Option Nat,
      listCheckpoints sd (some (threadId, ns)) none (some b) limit (.ok entries) =
        (selectEntries sd ns (some b) none entries).bind fun selected =>
          tuplesFromEntries sd threadId ns (applyLimit limit (sortNewestFirst selected))) := by
  constructor
  · rw [selectEntries_no_filter]
    rw [List.filter_filter]
    congr 1
    apply List.filter_congr
    intro e _
    rw [keepB_before ns b hb e]
    rw [Bool.and_comm]
  · intro threadId limit
    rfl

/-- C7 witness: the amended statement on the three-entry listing with the
middle checkpoint as cursor. -/
theorem C7_before_excludes_exactly_witness :
    selectEntries witnessSerde "" (some "c2") none
        [sampleEntry "e1" "c1" "2024-01-01",
         sampleEntry "e2" "c2" "2024-01-02",
         sampleEntry "e3" "c3" "2024-01-03"] =
      .ok ((([sampleEntry "e1" "c1" "2024-01-01",
              sampleEntry "e2" "c2" "2024-01-02",
              sampleEntry "e3" "c3" "2024-01-03"]).filter (keepB "" none)).filter
        (fun e => !((entryContentItem e).bind ContentItem.checkpoint_id == some "c2"))) :=
  (C7_before_excludes_exactly witnessSerde "" "c2" (by decide)
    [sampleEntry "e1" "c1" "2024-01-01",
     sampleEntry "e2" "c2" "2024-01-02",
     sampleEntry "e3" "c3" "2024-01-03"]).1

end CheckpointSaver

namespace CheckpointSaver

lemma charListLt_irrefl (a : List Char) : charListLt a a = false := by
  induction a with
  | nil => rfl
  | cons c cs ih => simp [charListLt, ih]

lemma charListLt_trans {a b c : List Char} (h1 : charListLt a b = true)
    (h2 : charListLt b c = true) : charListLt a c = true := by
  induction a generalizing b c with
  | nil =>
    cases b with
    | nil => simp [charListLt] at h1
    | cons y ys =>
      cases c with
      | nil => simp [charListLt] at h2
      | cons z zs => rfl
  | cons x xs ih =>
    cases b with
    | nil => simp [charListLt] at h1
    | cons y ys =>
      cases c with
      | nil => simp [charListLt] at h2
      | cons z zs =>
        simp only [charListLt] at h1 h2 ⊢
        by_cases hxy : x.toNat < y.toNat
        · by_cases hyz : y.toNat < z.toNat
          · rw [if_pos (by omega)]
          · rw [if_neg hyz] at h2
            by_cases hzy : z.toNat < y.toNat
            · simp [hzy] at h2
            · have : y.toNat = z.toNat := by omega
              rw [if_pos (by omega)]
        · rw [if_neg hxy] at h1
          by_cases hyx : y.toNat < x.toNat
          · simp [hyx] at h1
          · have hxyeq : x.toNat = y.toNat := by omega
            rw [if_neg (by omega)] at h1
            by_cases hyz : y.toNat < z.toNat
            · rw [if_pos (by omega)]
            · rw [if_neg hyz] at h2
              by_cases hzy : z.toNat < y.toNat
              · simp [hzy] at h2
              · rw [if_neg (by omega)] at h2
                rw [if_neg (by omega), if_neg (by omega)]
                exact ih h1 h2

lemma charListLt_trichotomy (a b : List Char) :
    charListLt a b = true ∨ charListLt b a = true ∨ a = b := by
  induction a generalizing b with
  | nil =>
    cases b with
    | nil => right; right; rfl
    | cons y ys => left; rfl
  | cons x xs ih =>
    cases b with
    | nil => right; left; rfl
    | cons y ys =>
      by_cases hxy : x.toNat < y.toNat
      · left; simp [charListLt, hxy]
      · by_cases hyx : y.toNat < x.toNat
        · right; left; simp [charListLt, hyx]
        · have hxe : x = y := by
            have h3 : x.toNat = y.toNat := by omega
            exact Char.ext (UInt32.toNat.inj h3)
          subst hxe
          rcases ih ys with h | h | h
          · left; simp [charListLt, h]
          · right; left; simp [charListLt, h]
          · right; right; rw [h]

lemma strLt_irrefl (s : String) : strLt s s = false := charListLt_irrefl _

lemma strLt_trans {a b c : String} (h1 : strLt a b = true) (h2 : strLt b c = true) :
    strLt a c = true := charListLt_trans h1 h2

lemma strLt_asymm {a b : String} (h : strLt a b = true) : strLt b a = false := by
  cases hba : strLt b a
  · rfl
  · have := strLt_trans h hba
    rw [strLt_irrefl] at this
    exact absurd this (by simp)

lemma strLt_trichotomy (a b : String) :
    strLt a b = true ∨ strLt b a = true ∨ a = b := by
  rcases charListLt_trichotomy a.toList b.toList with h | h | h
  · exact Or.inl h
  · exact Or.inr (Or.inl h)
  · refine Or.inr (Or.inr ?_)
    cases a; cases b
    congr 1

lemma strLe_refl (s : String) : strLe s s = true := by
  simp [strLe, strLt_irrefl]

lemma strLe_of_strLt {a b : String} (h : strLt a b = true) : strLe a b = true := by
  simp [strLe, strLt_asymm h]

lemma strLe_of_not_strLt {a b : String} (h : strLt a b = false) : strLe b a = true := by
  simp [strLe, h]

lemma strLt_of_strLt_of_strLe {a b c : String} (h1 : strLt a b = true)
    (h2 : strLe b c = true) : strLt a c = true := by
  rcases strLt_trichotomy a c with h | h | h
  · exact h
  · have := strLt_trans h h1
    simp [strLe, this] at h2
  · subst h
    simp [strLe, h1] at h2

lemma strLe_trans {a b c : String} (h1 : strLe a b = true) (h2 : strLe b c = true) :
    strLe a c = true := by
  simp only [strLe] at h1 h2 ⊢
  cases hca : strLt c a
  · rfl
  · rcases strLt_trichotomy a b with h | h | h
    · have := strLt_trans hca h
      simp [this] at h2
    · simp [h] at h1
    · subst h
      simp [hca] at h2

lemma strLt_of_strLe_of_strLt {a b c : String} (h1 : strLe a b = true)
    (h2 : strLt b c = true) : strLt a c = true := by
  rcases strLt_trichotomy a c with h | h | h
  · exact h
  · have := strLt_trans h2 h
    simp [strLe, this] at h1
  · subst h
    simp [strLe, h2] at h1

lemma pyMaxBy_first_max (key : Entry → String) (l : List Entry) (a : Entry) :
    (∀ x ∈ a :: l, strLe (key x) (key (pyMaxBy key a l)) = true) ∧
    ∃ l1 l2, a :: l = l1 ++ pyMaxBy key a l :: l2 ∧
      ∀ x ∈ l1, strLt (key x) (key (pyMaxBy key a l)) = true := by
  induction l generalizing a with
  | nil =>
    constructor
    · intro x hx
      have hxa : x = a := by simpa using hx
      subst hxa
      simp [pyMaxBy, strLe_refl]
    · exact ⟨[], [], by simp [pyMaxBy], by simp⟩
  | cons b t ih =>
    by_cases hab : strLt (key a) (key b) = true
    · obtain ⟨hmax, l1, l2, hdec, hpre⟩ := ih b
      have hr : pyMaxBy key a (b :: t) = pyMaxBy key b t := by
        simp [pyMaxBy, hab]
      rw [hr]
      have hbmax : strLe (key b) (key (pyMaxBy key b t)) = true := hmax b (by simp)
      constructor
      · intro x hx
        rcases List.mem_cons.mp hx with hx | hx
        · subst hx
          exact strLe_of_strLt (strLt_of_strLt_of_strLe hab hbmax)
        · exact hmax x hx
      · refine ⟨a :: l1, l2, by simp [hdec], ?_⟩
        intro x hx
        rcases List.mem_cons.mp hx with hx | hx
        · subst hx
          exact strLt_of_strLt_of_strLe hab hbmax
        · exact hpre x hx
    · obtain ⟨hmax, l1, l2, hdec, hpre⟩ := ih a
      have hr : pyMaxBy key a (b :: t) = pyMaxBy key a t := by
        simp [pyMaxBy, hab]
      rw [hr]
      generalize hR : pyMaxBy key a t = r at hmax hdec hpre ⊢
      have hamax : strLe (key a) (key r) = true := hmax a (by simp)
      have hba : strLe (key b) (key a) = true := by
        simp [strLe, (by simpa using hab : strLt (key a) (key b) = false)]
      have hbr : strLe (key b) (key r) = true := strLe_trans hba hamax
      constructor
      · intro x hx
        rcases List.mem_cons.mp hx with hx | hx
        · subst hx; exact hamax
        rcases List.mem_cons.mp hx with hx | hx
        · subst hx; exact hbr
        · exact hmax x (by simp [hx])
      · cases l1 with
        | nil =>
          have h0 : a = r ∧ t = l2 := by simpa using hdec
          refine ⟨[], b :: t, by simp [← h0.1], by simp⟩
        | cons h1 t1 =>
          have h0 : a = h1 ∧ t = t1 ++ r :: l2 := by simpa using hdec
          obtain ⟨ha1, ht⟩ := h0
          have har : strLt (key a) (key r) = true := by
            rw [ha1]; exact hpre h1 (by simp)
          refine ⟨a :: b :: t1, l2, by rw [ht]; simp, ?_⟩
          intro y hy
          rcases List.mem_cons.mp hy with hy | hy
          · subst hy; exact har
          rcases List.mem_cons.mp hy with hy | hy
          · subst hy; exact strLt_of_strLe_of_strLt hba har
          · exact hpre y (by simp [hy])

/-- C6: as stated the claim is false: the stated order falls back to the
entry id when two timestamps are equal, but `_entry_sort_key` never
consults the id when `createdAt` is present, and Python `max` keeps the
first maximal entry of the listing; with two entries sharing a timestamp
the code returns the first one while the stated order picks the one with
the larger id. -/
theorem C6_counterexample :
    (getTupleLatest witnessSerde "t" ""
        (.ok [sampleEntry "ea" "ca" "2024-01-01",
              sampleEntry "eb" "cb" "2024-01-01"])).map
      (Option.map fun t => t.config.checkpoint_id) = .ok (some "ca") ∧
    (∀ x ∈ [sampleEntry "ea" "ca" "2024-01-01",
            sampleEntry "eb" "cb" "2024-01-01"],
      specOrderLE x (sampleEntry "eb" "cb" "2024-01-01") = true) ∧
    (checkpointTupleFromEntry witnessSerde "t" ""
        (sampleEntry "eb" "cb" "2024-01-01")).map
      (fun t => t.config.checkpoint_id) = .ok "cb" ∧
    "ca" ≠ "cb" := by
  refine ⟨rfl, ?_, rfl, by decide⟩
  decide

/-- C6 (amended): `get` without a checkpoint id returns the checkpoint
decoded from the entry selected by Python `max` over `_entry_sort_key`
(the timestamp, or the id only when the timestamp is absent) among the
matching memory-channel entries: that entry has a maximal key and is the
first of the listing to attain it (ties are broken by listing position,
not by id); an empty selection yields absent, as does a 404. -/
theorem C6_latest {V W : Type} (sd : Serde V W) (threadId ns : String)
    (entries : List Entry) :
    (matchingCheckpoints ns entries = [] →
      getTupleLatest sd threadId ns (.ok entries) = .ok none) ∧
    (∀ e, pyMax entrySortKey (matchingCheckpoints ns entries) = some e →
      e ∈ matchingCheckpoints ns entries ∧
      (∀ x ∈ matchingCheckpoints ns entries,
        strLe (entrySortKey x) (entrySortKey e) = true) ∧
      (∃ l1 l2, matchingCheckpoints ns entries = l1 ++ e :: l2 ∧
        ∀ x ∈ l1, strLt (entrySortKey x) (entrySortKey e) = true) ∧
      getTupleLatest sd threadId ns (.ok entries) =
        (checkpointTupleFromEntry sd threadId ns e).map some) ∧
    getTupleLatest sd threadId ns .notFound = .ok none := by
  refine ⟨?_, ?_, rfl⟩
  · intro hm
    have hred : getTupleLatest sd threadId ns (.ok entries) =
        (match pyMax entrySortKey (matchingCheckpoints ns entries) with
         | none => Except.ok none
         | some latest => (checkpointTupleFromEntry sd threadId ns latest).map some) := rfl
    rw [hm] at hred
    simpa [pyMax] using hred
  · intro e he
    have hred : getTupleLatest sd threadId ns (.ok entries) =
        (checkpointTupleFromEntry sd threadId ns e).map some := by
      show (match pyMax entrySortKey (matchingCheckpoints ns entries) with
            | none => Except.ok none
            | some latest => (checkpointTupleFromEntry sd threadId ns latest).map some) =
        (checkpointTupleFromEntry sd threadId ns e).map some
      rw [he]
    cases hm : matchingCheckpoints ns entries with
    | nil =>
      rw [hm] at he
      exact absurd he (by simp [pyMax])
    | cons a rest =>
      rw [hm] at he
      have heq : pyMaxBy entrySortKey a rest = e := by
        simpa [pyMax] using he
      obtain ⟨hmax, l1, l2, hdec, hpre⟩ := pyMaxBy_first_max entrySortKey rest a
      rw [heq] at hmax hdec hpre
      exact ⟨by rw [hdec]; simp, fun x hx => hmax x hx, ⟨l1, l2, hdec, hpre⟩, hred⟩

/-- C6 witness: the amended statement evaluated on the two equal-timestamp
entries, where the first is selected. -/
theorem C6_latest_witness :
    getTupleLatest witnessSerde "t" ""
        (.ok [sampleEntry "ea" "ca" "2024-01-01",
              sampleEntry "eb" "cb" "2024-01-01"]) =
      (checkpointTupleFromEntry witnessSerde "t" ""
        (sampleEntry "ea" "ca" "2024-01-01")).map some :=
  ((C6_latest witnessSerde "t" ""
      [sampleEntry "ea" "ca" "2024-01-01",
       sampleEntry "eb" "cb" "2024-01-01"]).2.1
    (sampleEntry "ea" "ca" "2024-01-01") (by rfl)).2.2.2

end CheckpointSaver

namespace CheckpointSaver

lemma lookup_append_right {β : Type} (m : List (String × β)) (cid : String) (v : β)
    (h : m.lookup cid = none) : (m ++ [(cid, v)]).lookup cid = some v := by
  rw [List.lookup_append, h]
  simp [List.lookup]

lemma lookup_updateConv (convs : List (String × List Entry)) (convId : String)
    (v : List Entry) (h : convs.lookup convId ≠ none) :
    (updateConv convs convId v).lookup convId = some v :=
  ResponseResumer.lookup_map_overwrite convs convId v h

lemma getIt_after_append {V W : Type} (sd : Serde V W) (tsOf : Nat → String)
    (s1 : Server) (convId threadId ns : String) (parentCheckpointId : Option String)
    (checkpointId : String) (cp : V) (md : List (String × W)) (es : List Entry)
    (hlk : s1.convs.lookup convId = some es)
    (hfind : es.find? (fun e => e.id == some checkpointId) = none)
    (hcp : sd.loadsV ((sd.dumpsV cp).1, sd.b64dec (sd.b64enc (sd.dumpsV cp).2)) = cp)
    (hmd : sd.loadsM ((sd.dumpsM md).1, sd.b64dec (sd.b64enc (sd.dumpsM md).2)) = md) :
    (svcAppend tsOf s1 convId (putPayload sd ns parentCheckpointId checkpointId cp md)).2 =
      ⟨201, ""⟩ ∧
    ∃ t : CkptTuple V W,
      getTupleById sd threadId ns checkpointId
        (svcGetEntry
          (svcAppend tsOf s1 convId
            (putPayload sd ns parentCheckpointId checkpointId cp md)).1
          convId checkpointId) = .ok (some t) ∧
      t.checkpoint = cp ∧ t.metadata = md ∧
      t.config = ⟨threadId, ns, checkpointId⟩ := by
  have happ : svcAppend tsOf s1 convId (putPayload sd ns parentCheckpointId checkpointId cp md) =
      (⟨updateConv s1.convs convId
          (es ++ [mkEntry tsOf s1.clock (putPayload sd ns parentCheckpointId checkpointId cp md)]),
        s1.clock + 1⟩,
       ⟨201, ""⟩) := by
    unfold svcAppend
    rw [hlk]
  refine ⟨by rw [happ], ?_⟩
  rw [happ]
  have hget : svcGetEntry
      ⟨updateConv s1.convs convId
          (es ++ [mkEntry tsOf s1.clock (putPayload sd ns parentCheckpointId checkpointId cp md)]),
        s1.clock + 1⟩ convId checkpointId =
      .ok (mkEntry tsOf s1.clock (putPayload sd ns parentCheckpointId checkpointId cp md)) := by
    have hlk2 : (updateConv s1.convs convId
        (es ++ [mkEntry tsOf s1.clock
          (putPayload sd ns parentCheckpointId checkpointId cp md)])).lookup convId =
        some (es ++ [mkEntry tsOf s1.clock
          (putPayload sd ns parentCheckpointId checkpointId cp md)]) :=
      lookup_updateConv _ _ _ (by rw [hlk]; simp)
    simp only [svcGetEntry, hlk2, List.find?_append, hfind, Option.none_or]
    simp [List.find?, mkEntry, putPayload]
  rw [hget]
  cases parentCheckpointId with
  | none =>
    refine ⟨⟨⟨threadId, ns, checkpointId⟩, cp, md, none⟩, ?_, rfl, rfl, rfl⟩
    simp [getTupleById, mkEntry, putPayload, entryContentItem, checkpointTupleFromEntry,
      decodeTypedV, decodeTypedM, encodeTypedV, encodeTypedM, Except.bind, Except.map,
      hcp, hmd, CHECKPOINT_CONTENT_TYPE]
  | some p =>
    refine ⟨⟨⟨threadId, ns, checkpointId⟩, cp, md,
      if p = "" then none else some ⟨threadId, ns, p⟩⟩, ?_, rfl, rfl, rfl⟩
    simp [getTupleById, mkEntry, putPayload, entryContentItem, checkpointTupleFromEntry,
      decodeTypedV, decodeTypedM, encodeTypedV, encodeTypedM, Except.bind, Except.map,
      hcp, hmd, CHECKPOINT_CONTENT_TYPE]

end CheckpointSaver

namespace CheckpointSaver

/-- C1: against the spec-modelled entry service, every checkpoint saved
with `put` (whether the conversation already exists or is created lazily
by the retry ladder) is returned by a subsequent `get` called with the
pointer that `put` returned, with payload and metadata equal to the ones
written, provided the serializer and base64 transport invert their
encodings at the written values and no earlier entry of the conversation
already carries this checkpoint id. -/
theorem C1_put_get_roundtrip {V W : Type} (sd : Serde V W) (tsOf : Nat → String)
    (srv : Server) (convIdOf : String → String) (threadId ns : String)
    (parentCheckpointId : Option String) (checkpointId : String)
    (cp : V) (md : List (String × W)) (forkConv forkEntry : Option String)
    (hid : checkpointId ≠ "")
    (hcp : sd.loadsV ((sd.dumpsV cp).1, sd.b64dec (sd.b64enc (sd.dumpsV cp).2)) = cp)
    (hmd : sd.loadsM ((sd.dumpsM md).1, sd.b64dec (sd.b64enc (sd.dumpsM md).2)) = md)
    (huniq : ∀ es, srv.convs.lookup (convIdOf threadId) = some es →
      es.find? (fun e => e.id == some checkpointId) = none) :
    (putCheckpoint (entryService tsOf) srv convIdOf threadId ns parentCheckpointId
        checkpointId sd cp md forkConv forkEntry).result =
      .ok ⟨threadId, ns, checkpointId⟩ ∧
    ∃ t : CkptTuple V W,
      getTuple sd threadId ns (some checkpointId)
        (fun cid => svcGetEntry
          (putCheckpoint (entryService tsOf) srv convIdOf threadId ns parentCheckpointId
              checkpointId sd cp md forkConv forkEntry).state
          (convIdOf threadId) cid)
        (svcListEntries
          (putCheckpoint (entryService tsOf) srv convIdOf threadId ns parentCheckpointId
              checkpointId sd cp md forkConv forkEntry).state
          (convIdOf threadId)) = .ok (some t) ∧
      t.checkpoint = cp ∧ t.metadata = md ∧
      t.config = ⟨threadId, ns, checkpointId⟩ := by
  have hdisp : ∀ (f : String → SvcResp Entry) (l : SvcResp (List Entry)),
      getTuple sd threadId ns (some checkpointId) f l =
        getTupleById sd threadId ns checkpointId (f checkpointId) := by
    intro f l
    unfold getTuple
    dsimp only
    rw [if_pos hid]
  have hdup : isDuplicateConversationError ⟨201, ""⟩ = false := rfl
  cases hl : srv.convs.lookup (convIdOf threadId) with
  | some es =>
    obtain ⟨hresp, t, hget, hck, hmdt, hcfg⟩ :=
      getIt_after_append sd tsOf srv (convIdOf threadId) threadId ns parentCheckpointId
        checkpointId cp md es hl (huniq es hl) hcp hmd
    have hput : putCheckpoint (entryService tsOf) srv convIdOf threadId ns
        parentCheckpointId checkpointId sd cp md forkConv forkEntry =
        ⟨(svcAppend tsOf srv (convIdOf threadId)
            (putPayload sd ns parentCheckpointId checkpointId cp md)).1,
          [.appendEntry (convIdOf threadId)
            (putPayload sd ns parentCheckpointId checkpointId cp md)],
          ⟨201, ""⟩, .ok ⟨threadId, ns, checkpointId⟩⟩ := by
      simp [putCheckpoint, entryService, hresp, putAfterRetry, putAfterCreate, hdup,
        putFinish]
    rw [hput, hdisp]
    exact ⟨rfl, t, hget, hck, hmdt, hcfg⟩
  | none =>
    have ha1 : svcAppend tsOf srv (convIdOf threadId)
        (putPayload sd ns parentCheckpointId checkpointId cp md) =
        (srv, ⟨404, "conversation not found"⟩) := by
      unfold svcAppend
      rw [hl]
    have ha2 : svcAppend tsOf srv (convIdOf threadId)
        (payloadWithForkMetadata
          (putPayload sd ns parentCheckpointId checkpointId cp md) forkConv forkEntry) =
        (srv, ⟨404, "conversation not found"⟩) := by
      unfold svcAppend
      rw [hl]
    have hcr : svcCreate srv (convIdOf threadId) ("Python checkpoint " ++ threadId) =
        (⟨srv.convs ++ [(convIdOf threadId, [])], srv.clock⟩,
         ⟨201, "Python checkpoint " ++ threadId⟩) := by
      unfold svcCreate
      rw [hl]
    have hlk2 : (⟨srv.convs ++ [(convIdOf threadId, [])], srv.clock⟩ : Server).convs.lookup
        (convIdOf threadId) = some [] :=
      lookup_append_right srv.convs (convIdOf threadId) [] hl
    obtain ⟨hresp, t, hget, hck, hmdt, hcfg⟩ :=
      getIt_after_append sd tsOf ⟨srv.convs ++ [(convIdOf threadId, [])], srv.clock⟩
        (convIdOf threadId) threadId ns parentCheckpointId
        checkpointId cp md [] hlk2 rfl hcp hmd
    have hput : putCheckpoint (entryService tsOf) srv convIdOf threadId ns
        parentCheckpointId checkpointId sd cp md forkConv forkEntry =
        ⟨(svcAppend tsOf ⟨srv.convs ++ [(convIdOf threadId, [])], srv.clock⟩
            (convIdOf threadId)
            (putPayload sd ns parentCheckpointId checkpointId cp md)).1,
          [.appendEntry (convIdOf threadId)
            (putPayload sd ns parentCheckpointId checkpointId cp md),
           .appendEntry (convIdOf threadId)
            (payloadWithForkMetadata
              (putPayload sd ns parentCheckpointId checkpointId cp md) forkConv forkEntry),
           .createConversation (convIdOf threadId) ("Python checkpoint " ++ threadId),
           .appendEntry (convIdOf threadId)
            (putPayload sd ns parentCheckpointId checkpointId cp md)],
          ⟨201, ""⟩, .ok ⟨threadId, ns, checkpointId⟩⟩ := by
      simp [putCheckpoint, entryService, ha1, ha2, putAfterRetry, hcr, hresp,
        putAfterCreate, hdup, putFinish]
    rw [hput, hdisp]
    exact ⟨rfl, t, hget, hck, hmdt, hcfg⟩

end CheckpointSaver

namespace CheckpointSaver

/-- C1 witness: a concrete roundtrip through an initially empty server
(the lazy-creation path). -/
theorem C1_put_get_roundtrip_witness :
    (putCheckpoint (entryService (fun n => toString n)) ⟨[], 0⟩ (fun t => t) "t1" ""
        none "ck" witnessSerde 5 [("k", 7)] none none).result =
      .ok ⟨"t1", "", "ck"⟩ :=
  (C1_put_get_roundtrip witnessSerde (fun n => toString n) ⟨[], 0⟩ (fun t => t) "t1" ""
    none "ck" 5 [("k", 7)] none none (by decide) (by decide) (by decide)
    (fun es h => by simp [List.lookup] at h)).1

end CheckpointSaver

namespace CheckpointSaver

/-- C4: the write ladder of `put` against a response oracle: on a first
404 the second request is the append retried with fork metadata attached
exactly when the call is part of a fork; on a second 404 an explicit
create-conversation call is issued (response ignored) and the original
append is retried; a duplicate-primary-key conflict on that append
triggers exactly one further append; any other final status of 400 or
more raises with that body, a final status under 400 returns the new
pointer, and when the service never answers a retry of a duplicate
conflict with another duplicate conflict (one racing create per id), no
duplicate-conversation error is ever surfaced. -/
theorem C4_put_retry_protocol {V W : Type} (o : Nat → HttpResp)
    (convIdOf : String → String) (threadId ns : String)
    (parentCheckpointId : Option String) (checkpointId : String)
    (sd : Serde V W) (cp : V) (md : List (String × W))
    (forkConv forkEntry : Option String) :
    ((truthy forkConv && truthy forkEntry) = true →
      payloadWithForkMetadata (putPayload sd ns parentCheckpointId checkpointId cp md)
          forkConv forkEntry =
        { putPayload sd ns parentCheckpointId checkpointId cp md with
          forkedAtConversationId := forkConv, forkedAtEntryId := forkEntry }) ∧
    ((truthy forkConv && truthy forkEntry) = false →
      payloadWithForkMetadata (putPayload sd ns parentCheckpointId checkpointId cp md)
          forkConv forkEntry =
        putPayload sd ns parentCheckpointId checkpointId cp md) ∧
    ((o 0).status = 404 → (o 1).status = 404 →
      isDuplicateConversationError (o 3) = false →
      (putCheckpoint (oracleService o) 0 convIdOf threadId ns parentCheckpointId
          checkpointId sd cp md forkConv forkEntry).requests =
        [.appendEntry (convIdOf threadId)
            (putPayload sd ns parentCheckpointId checkpointId cp md),
         .appendEntry (convIdOf threadId)
            (payloadWithForkMetadata
              (putPayload sd ns parentCheckpointId checkpointId cp md) forkConv forkEntry),
         .createConversation (convIdOf threadId) ("Python checkpoint " ++ threadId),
         .appendEntry (convIdOf threadId)
            (putPayload sd ns parentCheckpointId checkpointId cp md)] ∧
      (putCheckpoint (oracleService o) 0 convIdOf threadId ns parentCheckpointId
          checkpointId sd cp md forkConv forkEntry).finalResp = o 3) ∧
    ((o 0).status = 404 → (o 1).status = 404 →
      isDuplicateConversationError (o 3) = true →
      (putCheckpoint (oracleService o) 0 convIdOf threadId ns parentCheckpointId
          checkpointId sd cp md forkConv forkEntry).requests =
        [.appendEntry (convIdOf threadId)
            (putPayload sd ns parentCheckpointId checkpointId cp md),
         .appendEntry (convIdOf threadId)
            (payloadWithForkMetadata
              (putPayload sd ns parentCheckpointId checkpointId cp md) forkConv forkEntry),
         .createConversation (convIdOf threadId) ("Python checkpoint " ++ threadId),
         .appendEntry (convIdOf threadId)
            (putPayload sd ns parentCheckpointId checkpointId cp md),
         .appendEntry (convIdOf threadId)
            (putPayload sd ns parentCheckpointId checkpointId cp md)] ∧
      (putCheckpoint (oracleService o) 0 convIdOf threadId ns parentCheckpointId
          checkpointId sd cp md forkConv forkEntry).finalResp = o 4) ∧
    (400 ≤ (putCheckpoint (oracleService o) 0 convIdOf threadId ns parentCheckpointId
        checkpointId sd cp md forkConv forkEntry).finalResp.status →
      (putCheckpoint (oracleService o) 0 convIdOf threadId ns parentCheckpointId
          checkpointId sd cp md forkConv forkEntry).result =
        .error (putCheckpoint (oracleService o) 0 convIdOf threadId ns parentCheckpointId
          checkpointId sd cp md forkConv forkEntry).finalResp.body) ∧
    ((putCheckpoint (oracleService o) 0 convIdOf threadId ns parentCheckpointId
        checkpointId sd cp md forkConv forkEntry).finalResp.status < 400 →
      (putCheckpoint (oracleService o) 0 convIdOf threadId ns parentCheckpointId
          checkpointId sd cp md forkConv forkEntry).result =
        .ok ⟨threadId, ns, checkpointId⟩) ∧
    ((∀ i, isDuplicateConversationError (o i) = true →
        isDuplicateConversationError (o (i + 1)) = false) →
      isDuplicateConversationError
        (putCheckpoint (oracleService o) 0 convIdOf threadId ns parentCheckpointId
          checkpointId sd cp md forkConv forkEntry).finalResp = false) := by
  have hfin : ∀ (s : Nat) (r : HttpResp) (reqs : List PutReq),
      (putFinish s threadId ns checkpointId r reqs).finalResp = r ∧
      (400 ≤ r.status →
        (putFinish s threadId ns checkpointId r reqs).result = .error r.body) ∧
      (r.status < 400 →
        (putFinish s threadId ns checkpointId r reqs).result =
          .ok ⟨threadId, ns, checkpointId⟩) := by
    intro s r reqs
    unfold putFinish
    split_ifs with h
    · exact ⟨rfl, fun _ => rfl, fun hlt => absurd h (by omega)⟩
    · exact ⟨rfl, fun hge => absurd hge h, fun _ => rfl⟩
  have hPAC : ∀ (n : Nat) (reqs : List PutReq),
      (400 ≤ (putAfterCreate (oracleService o) (n + 1) (convIdOf threadId) threadId ns
          checkpointId (putPayload sd ns parentCheckpointId checkpointId cp md)
          (o n) reqs).finalResp.status →
        (putAfterCreate (oracleService o) (n + 1) (convIdOf threadId) threadId ns
          checkpointId (putPayload sd ns parentCheckpointId checkpointId cp md)
          (o n) reqs).result =
          .error (putAfterCreate (oracleService o) (n + 1) (convIdOf threadId) threadId ns
            checkpointId (putPayload sd ns parentCheckpointId checkpointId cp md)
            (o n) reqs).finalResp.body) ∧
      ((putAfterCreate (oracleService o) (n + 1) (convIdOf threadId) threadId ns
          checkpointId (putPayload sd ns parentCheckpointId checkpointId cp md)
          (o n) reqs).finalResp.status < 400 →
        (putAfterCreate (oracleService o) (n + 1) (convIdOf threadId) threadId ns
          checkpointId (putPayload sd ns parentCheckpointId checkpointId cp md)
          (o n) reqs).result = .ok ⟨threadId, ns, checkpointId⟩) ∧
      ((∀ i, isDuplicateConversationError (o i) = true →
          isDuplicateConversationError (o (i + 1)) = false) →
        isDuplicateConversationError
          (putAfterCreate (oracleService o) (n + 1) (convIdOf threadId) threadId ns
            checkpointId (putPayload sd ns parentCheckpointId checkpointId cp md)
            (o n) reqs).finalResp = false) := by
    intro n reqs
    unfold putAfterCreate oracleService
    by_cases hd : isDuplicateConversationError (o n) = true
    · rw [if_pos hd]
      dsimp only
      obtain ⟨hfr, he, hk⟩ := hfin (n + 1 + 1) (o (n + 1))
        (reqs ++ [.appendEntry (convIdOf threadId)
          (putPayload sd ns parentCheckpointId checkpointId cp md)])
      rw [hfr]
      exact ⟨he, hk, fun hrace => hrace n hd⟩
    · rw [if_neg hd]
      obtain ⟨hfr, he, hk⟩ := hfin (n + 1) (o n) reqs
      rw [hfr]
      exact ⟨he, hk, fun _ => by simpa using hd⟩
  have hRetry : ∀ (n : Nat) (reqs : List PutReq),
      (400 ≤ (putAfterRetry (oracleService o) (n + 1) (convIdOf threadId) threadId ns
          checkpointId (putPayload sd ns parentCheckpointId checkpointId cp md)
          (o n) reqs).finalResp.status →
        (putAfterRetry (oracleService o) (n + 1) (convIdOf threadId) threadId ns
          checkpointId (putPayload sd ns parentCheckpointId checkpointId cp md)
          (o n) reqs).result =
          .error (putAfterRetry (oracleService o) (n + 1) (convIdOf threadId) threadId ns
            checkpointId (putPayload sd ns parentCheckpointId checkpointId cp md)
            (o n) reqs).finalResp.body) ∧
      ((putAfterRetry (oracleService o) (n + 1) (convIdOf threadId) threadId ns
          checkpointId (putPayload sd ns parentCheckpointId checkpointId cp md)
          (o n) reqs).finalResp.status < 400 →
        (putAfterRetry (oracleService o) (n + 1) (convIdOf threadId) threadId ns
          checkpointId (putPayload sd ns parentCheckpointId checkpointId cp md)
          (o n) reqs).result = .ok ⟨threadId, ns, checkpointId⟩) ∧
      ((∀ i, isDuplicateConversationError (o i) = true →
          isDuplicateConversationError (o (i + 1)) = false) →
        isDuplicateConversationError
          (putAfterRetry (oracleService o) (n + 1) (convIdOf threadId) threadId ns
            checkpointId (putPayload sd ns parentCheckpointId checkpointId cp md)
            (o n) reqs).finalResp = false) := by
    intro n reqs
    unfold putAfterRetry oracleService
    by_cases h4 : ((o n).status == 404) = true
    · rw [if_pos h4]
      dsimp only
      have := hPAC (n + 1 + 1)
        (reqs ++ [.createConversation (convIdOf threadId) ("Python checkpoint " ++ threadId),
                  .appendEntry (convIdOf threadId)
                    (putPayload sd ns parentCheckpointId checkpointId cp md)])
      simpa using this
    · rw [if_neg h4]
      exact hPAC n reqs
  have hTop :
      (400 ≤ (putCheckpoint (oracleService o) 0 convIdOf threadId ns parentCheckpointId
          checkpointId sd cp md forkConv forkEntry).finalResp.status →
        (putCheckpoint (oracleService o) 0 convIdOf threadId ns parentCheckpointId
          checkpointId sd cp md forkConv forkEntry).result =
          .error (putCheckpoint (oracleService o) 0 convIdOf threadId ns parentCheckpointId
            checkpointId sd cp md forkConv forkEntry).finalResp.body) ∧
      ((putCheckpoint (oracleService o) 0 convIdOf threadId ns parentCheckpointId
          checkpointId sd cp md forkConv forkEntry).finalResp.status < 400 →
        (putCheckpoint (oracleService o) 0 convIdOf threadId ns parentCheckpointId
          checkpointId sd cp md forkConv forkEntry).result =
          .ok ⟨threadId, ns, checkpointId⟩) ∧
      ((∀ i, isDuplicateConversationError (o i) = true →
          isDuplicateConversationError (o (i + 1)) = false) →
        isDuplicateConversationError
          (putCheckpoint (oracleService o) 0 convIdOf threadId ns parentCheckpointId
            checkpointId sd cp md forkConv forkEntry).finalResp = false) := by
    unfold putCheckpoint oracleService
    by_cases h4 : ((o 0).status == 404) = true
    · rw [if_pos h4]
      dsimp only
      have := hRetry 1
        [.appendEntry (convIdOf threadId)
          (putPayload sd ns parentCheckpointId checkpointId cp md),
         .appendEntry (convIdOf threadId)
          (payloadWithForkMetadata
            (putPayload sd ns parentCheckpointId checkpointId cp md) forkConv forkEntry)]
      simpa using this
    · rw [if_neg h4]
      have := hRetry 0
        [.appendEntry (convIdOf threadId)
          (putPayload sd ns parentCheckpointId checkpointId cp md)]
      simpa using this
  refine ⟨?_, ?_, ?_, ?_, hTop.1, hTop.2.1, hTop.2.2⟩
  · intro h
    unfold payloadWithForkMetadata
    rw [if_pos h]
  · intro h
    unfold payloadWithForkMetadata
    rw [if_neg (by simp [h])]
  · intro h0 h1 hd3
    have hput : putCheckpoint (oracleService o) 0 convIdOf threadId ns parentCheckpointId
        checkpointId sd cp md forkConv forkEntry =
        putFinish 4 threadId ns checkpointId (o 3)
          [.appendEntry (convIdOf threadId)
              (putPayload sd ns parentCheckpointId checkpointId cp md),
           .appendEntry (convIdOf threadId)
              (payloadWithForkMetadata
                (putPayload sd ns parentCheckpointId checkpointId cp md) forkConv forkEntry),
           .createConversation (convIdOf threadId) ("Python checkpoint " ++ threadId),
           .appendEntry (convIdOf threadId)
              (putPayload sd ns parentCheckpointId checkpointId cp md)] := by
      simp [putCheckpoint, oracleService, putAfterRetry, putAfterCreate, h0, h1, hd3]
    rw [hput]
    unfold putFinish
    split_ifs <;> exact ⟨rfl, rfl⟩
  · intro h0 h1 hd3
    have hput : putCheckpoint (oracleService o) 0 convIdOf threadId ns parentCheckpointId
        checkpointId sd cp md forkConv forkEntry =
        putFinish 5 threadId ns checkpointId (o 4)
          [.appendEntry (convIdOf threadId)
              (putPayload sd ns parentCheckpointId checkpointId cp md),
           .appendEntry (convIdOf threadId)
              (payloadWithForkMetadata
                (putPayload sd ns parentCheckpointId checkpointId cp md) forkConv forkEntry),
           .createConversation (convIdOf threadId) ("Python checkpoint " ++ threadId),
           .appendEntry (convIdOf threadId)
              (putPayload sd ns parentCheckpointId checkpointId cp md),
           .appendEntry (convIdOf threadId)
              (putPayload sd ns parentCheckpointId checkpointId cp md)] := by
      simp [putCheckpoint, oracleService, putAfterRetry, putAfterCreate, h0, h1, hd3]
    rw [hput]
    unfold putFinish
    split_ifs <;> exact ⟨rfl, rfl⟩

end CheckpointSaver

namespace CheckpointSaver

/-- C4 witness: on the racing-create oracle the ladder issues the five
requests, finishes on the post-conflict retry, and returns the pointer. -/
theorem C4_put_retry_protocol_witness :
    (putCheckpoint (oracleService c4OracleW) 0 (fun t => t) "t1" "" none "ck"
        witnessSerde 5 [("k", 7)] none none).finalResp = c4OracleW 4 ∧
    (putCheckpoint (oracleService c4OracleW) 0 (fun t => t) "t1" "" none "ck"
        witnessSerde 5 [("k", 7)] none none).result = .ok ⟨"t1", "", "ck"⟩ :=
  ⟨((C4_put_retry_protocol c4OracleW (fun t => t) "t1" "" none "ck"
      witnessSerde 5 [("k", 7)] none none).2.2.2.1 rfl rfl (by decide)).2,
   (C4_put_retry_protocol c4OracleW (fun t => t) "t1" "" none "ck"
      witnessSerde 5 [("k", 7)] none none).2.2.2.2.2.1 (by decide)⟩

end CheckpointSaver
